import Mathlib

/-!
# Verification of the Raspberry Pi audio player's playback orchestration core

Shallow embedding of the Python sources (`player.py`, `vlc_player.py`,
`config_manager.py`, `api_client.py`) of the `raspberry-pi-audio-player`
repository, together with proofs settling the frozen claims about it.

Modelling conventions:
* Python `int` indices are `Int`; elapsed playback seconds (a Python float
  accumulated from wall-clock differences) are modelled as `Int` — the claims
  only compare the timer with `0` or assert it unchanged, so the carrier of the
  numeric value is irrelevant.
* The on-disk audio cache is a pure value: a list of file names (for the
  reconciliation code, which only inspects names) or of name/size pairs (for
  the downloader, which also checks sizes).
* Calls into VLC, the filesystem and the network are parameterised by an
  `Env` record of oracles (does this path exist, does a play call succeed, …).
* A Python `IndexError` escaping a function is modelled by an `Option` result
  (`none` = exception propagated to the caller).
* Character classes of Python regexes are modelled over ASCII; string
  manipulation is written over `List Char` by structural recursion so that
  every definition evaluates inside the kernel.
-/

namespace AudioPlayer

/-- Python's `%` operator on integers (floored modulo: for a positive modulus
the result is always in `[0, modulus)`), written via Lean's `Int.emod`. -/
def pymod (a b : Int) : Int := ((a % b) + b) % b

/-- Python list subscription `l[i]`: non-negative indices from the front,
negative indices from the back, `none` models an `IndexError`. -/
def pyIndex? {α : Type} (l : List α) (i : Int) : Option α :=
  if 0 ≤ i then l.get? i.toNat
  else if 0 ≤ i + l.length then l.get? (i + l.length).toNat
  else none

/-! ## Character-list string helpers (Python `str.split` etc.) -/

/-- `str.split(sep)` for a one-character separator (`"".split(sep) = [""]`). -/
def splitOnChar (sep : Char) : List Char → List (List Char)
  | [] => [[]]
  | c :: cs =>
      let r := splitOnChar sep cs
      if c = sep then [] :: r
      else
        match r with
        | [] => [[c]]
        | hd :: tl => (c :: hd) :: tl

/-- `sep.join(parts)` for a one-character separator. -/
def joinChar (sep : Char) : List (List Char) → List Char
  | [] => []
  | [p] => p
  | p :: ps => p ++ sep :: joinChar sep ps

/-- String starts-with on character lists. -/
def strStarts (s p : List Char) : Bool := p.isPrefixOf s

/-- String ends-with on character lists. -/
def strEnds (s p : List Char) : Bool := p.isSuffixOf s

/-! ## `api_client._normalize_filename` and its URL helpers -/

/-- Characters kept verbatim by `re.sub(r'[^\w\-_.]', '_', filename)`
(ASCII model of `\w`). -/
def keepChar (c : Char) : Bool :=
  c.isAlphanum || c = '_' || c = '-' || c = '.'

/-- Is `c` legal in a URL scheme after the leading letter
(`urllib.parse` accepts letters, digits, `+`, `-`, `.`). -/
def schemeChar (c : Char) : Bool :=
  c.isAlphanum || c = '+' || c = '-' || c = '.'

/-- Strip a leading `scheme:` from a URL when the text before the first `:`
is a well-formed scheme, as `urllib.parse.urlparse` does. -/
def stripScheme (s : List Char) : List Char :=
  match splitOnChar ':' s with
  | [] => s
  | [_] => s
  | hd :: tl =>
      if hd ≠ [] && (hd.headD ' ').isAlpha && hd.all schemeChar then
        joinChar ':' tl
      else s

/-- Drop `;parameters` from the last path segment, mirroring the params
split performed by `urllib.parse.urlparse` (but not `urlsplit`). -/
def dropParams (p : List Char) : List Char :=
  let segs := splitOnChar '/' p
  let last := segs.getLastD []
  if last.any (fun c => c = ';') then
    joinChar '/' (segs.dropLast ++ [(splitOnChar ';' last).headD []])
  else p

/-- The `.path` component of `urllib.parse.urlparse(url)`: fragment and query
removed, scheme stripped, `//netloc` consumed up to the next `/`, and
`;params` of the last segment excluded. -/
def urlPath (url : List Char) : List Char :=
  let s := (splitOnChar '#' url).headD []
  let s := (splitOnChar '?' s).headD []
  let s := stripScheme s
  let s :=
    if strStarts s ['/', '/'] then
      match splitOnChar '/' (s.drop 2) with
      | [] => []
      | [_] => []
      | _ :: segs => '/' :: joinChar '/' segs
    else s
  dropParams s

/-- `os.path.basename`: the part after the last `/`. -/
def basename (p : List Char) : List Char := (splitOnChar '/' p).getLastD []

/-- Does the (lower-cased) name carry one of the recognised audio extensions? -/
def hasMediaExt (s : List Char) : Bool :=
  strEnds s ".mp3".data || strEnds s ".wav".data || strEnds s ".ogg".data ||
  strEnds s ".flac".data || strEnds s ".m4a".data || strEnds s ".aac".data

/-- `os.path.splitext`: split at the last `.` that has some non-dot character
strictly before it; otherwise the extension is empty. -/
def splitExt (s : List Char) : List Char × List Char :=
  match ((List.range s.length).filter
      (fun i => s.getD i ' ' = '.' && (s.take i).any (fun c => c ≠ '.'))).getLast? with
  | none => (s, [])
  | some i => (s.take i, s.drop i)

/-- `APIClient._normalize_filename` (`api_client.py:205-233`): derive a
filesystem-safe cached file name from a playlist URL. -/
def normalizeFilenameL (url : List Char) : List Char :=
  if url = [] then "unknown.mp3".data
  else
    let filename := basename (urlPath url)
    let filename := if filename = [] then "unknown".data else filename
    let filename :=
      if hasMediaExt (filename.map Char.toLower) then filename
      else filename ++ ".mp3".data
    let filename :=
      if filename.any (fun c => c = '?') then (splitOnChar '?' filename).headD []
      else filename
    let filename := filename.map (fun c => if keepChar c then c else '_')
    if filename.length > 200 then
      let ne := splitExt filename
      ne.1.take 150 ++ ne.2
    else filename

/-- String-valued wrapper for `_normalize_filename`. -/
def normalizeFilename (url : String) : String := ⟨normalizeFilenameL url.data⟩

/-- The cache-name prefix for a track type (`'main_'` / `'ad_'`). -/
def pfxOf (track_type : String) : String :=
  if track_type = "main" then "main_" else "ad_"

example : normalizeFilename "http://host/dir/a.mp3?sig=1" = "a.mp3" := by decide
example : normalizeFilename "https://h/track one.MP3" = "track_one.MP3" := by decide
example : normalizeFilename "http://h/x" = "x.mp3" := by decide
example : pymod (-1) 3 = 2 := by decide
example : pyIndex? ["a", "b"] (-2) = some "a" := by decide
example : pyIndex? ["a", "b"] (-3) = none := by decide

/-! ## Data model of the player's mutable state

`Config` embeds the fields of `ConfigManager` that the orchestration code
reads or writes; `savedState` models the contents of `state.json` as written
by `ConfigManager.save_state` (`config_manager.py:184-196`). -/

/-- The record written to `state.json` by `save_state`. -/
structure SavedState where
  current_track : Int
  current_ad : Int
  total_playback_time : Int
  deriving Repr, DecidableEq

/-- The mutable fields of `ConfigManager` used by the orchestration core. -/
structure Config where
  current_track_index : Int
  current_ad_index : Int
  total_playback_time_since_last_ad : Int
  last_minute_log : Int
  ads_enabled : Bool
  playback_interval : Int
  savedState : Option SavedState
  deriving Repr, DecidableEq

/-- The mutable fields of `VLCPlayer` (`vlc_player.py:22-24`). -/
structure VlcState where
  current_track_path : Option String
  pause_position : Int
  was_paused : Bool
  deriving Repr, DecidableEq

/-- The `pending_ad_resume_state` dict saved before an ad
(`player.py:516-519`); `track_path` may be Python `None`. -/
structure ResumeState where
  track_path : Option String
  pause_position : Int
  deriving Repr, DecidableEq

/-- The mutable fields of `AudioPlayer` (`player.py:73-79`) together with the
configuration state and the cache-directory listings that
`get_cached_tracks('main')` / `get_cached_tracks('ad')` would return.
`pending_ad_resume_attr = none` models the attribute having been removed with
`del` (so `hasattr` is false); `some none` models it being set to `None`. -/
structure PState where
  is_playing : Bool
  is_paused : Bool
  is_playing_ad : Bool
  should_refresh : Bool
  pending_commands : List String
  pending_ad_resume_attr : Option (Option ResumeState)
  cfg : Config
  vlc : VlcState
  mainCache : List String
  adCache : List String
  deriving Repr, DecidableEq

/-- Oracles for the external world: the filesystem, the VLC engine and the
network. `playOk p` is whether a `play_track` call on path `p` reaches the
"is playing" poll successfully (`vlc_player.py:181-201`); `vlcIsPlaying` and
`vlcTimeSec` are the engine's is-playing flag and current position used by
`pause` (`vlc_player.py:271-272`). -/
structure Env where
  fileExists : String → Bool
  playOk : String → Bool
  vlcIsPlaying : Bool
  vlcTimeSec : Int
  netOk : Bool

/-- `ConfigManager.save_state` (`config_manager.py:184-196`): overwrite
`state.json` with the three persisted cursors. -/
def saveState (s : PState) : PState :=
  { s with
      cfg := { s.cfg with
          savedState := some ⟨s.cfg.current_track_index,
                              s.cfg.current_ad_index,
                              s.cfg.total_playback_time_since_last_ad⟩ } }

/-- `VLCPlayer.pause` (`vlc_player.py:268-279`): when the engine is playing,
record the current position and mark `was_paused`. -/
def vlcPause (env : Env) (s : PState) : PState :=
  if env.vlcIsPlaying then
    { s with vlc := { s.vlc with pause_position := env.vlcTimeSec,
                                 was_paused := true } }
  else s

/-- `AudioPlayer.handle_command` (`player.py:100-229`). Heartbeat reporting,
logging and the scheduled reboot are external effects with no bearing on the
orchestration state and are not part of the state transition. `vlc.stop()`
preserves the VLC fields (`vlc_player.py:281-284`), so the `stop`/`next`/
`previous` branches leave `s.vlc` unchanged. -/
def handle_command (env : Env) (s : PState) (command : String) : PState :=
  if command.data.all Char.isWhitespace then s
  else if s.is_playing_ad then
    { s with pending_commands := s.pending_commands ++ [command] }
  else if command = "play" then
    if s.is_paused then { s with is_paused := false, is_playing := true }
    else if !s.is_playing then { s with is_playing := true }
    else s
  else if command = "pause" then
    if s.is_playing && !s.is_paused then
      let s := vlcPause env s
      { s with is_paused := true, is_playing := false }
    else s
  else if command = "stop" then
    saveState { s with
        is_playing := false,
        is_paused := false,
        cfg := { s.cfg with
            current_track_index := 0,
            total_playback_time_since_last_ad := 0 } }
  else if command = "next" then
    let s :=
      if s.mainCache ≠ [] then
        if s.cfg.current_track_index ≥ (s.mainCache.length : Int) then
          { s with cfg := { s.cfg with current_track_index := 0 } }
        else s
      else s
    saveState s
  else if command = "previous" then
    let s :=
      if s.mainCache ≠ [] then
        let i := pymod (s.cfg.current_track_index - 2) s.mainCache.length
        -- the source keeps a dead guard `if index < 0: index = len - 1`
        let i := if i < 0 then (s.mainCache.length : Int) - 1 else i
        { s with cfg := { s.cfg with current_track_index := i } }
      else s
    saveState s
  else if command = "refresh" then
    let s := saveState { s with
      cfg := { s.cfg with total_playback_time_since_last_ad := 0 } }
    { s with should_refresh := true, is_playing := true, is_paused := false }
  else if command = "reboot" then s
  else s

/-! ## Deferred-command replay (`AudioPlayer.process_pending_commands`) -/

/-- Accumulator of the scan loop in `process_pending_commands`
(`player.py:235-257`). -/
structure ScanState where
  cleaned : List String
  has_stop : Bool
  has_next : Bool
  has_prev : Bool
  has_pause : Bool
  play_count : Nat
  deriving Repr, DecidableEq

/-- The `for cmd in self.pending_commands` loop of `process_pending_commands`
(`player.py:242-257`); reaching a `stop` overwrites the accumulated list with
`["stop"]` and breaks out of the loop. -/
def scanPending : List String → ScanState → ScanState
  | [], acc => acc
  | cmd :: rest, acc =>
      if cmd = "stop" then
        { acc with has_stop := true, cleaned := ["stop"] }
      else if cmd = "next" then
        scanPending rest { acc with has_next := true,
                                    cleaned := acc.cleaned ++ [cmd] }
      else if cmd = "previous" then
        scanPending rest { acc with has_prev := true,
                                    cleaned := acc.cleaned ++ [cmd] }
      else if cmd = "pause" then
        scanPending rest { acc with has_pause := true,
                                    cleaned := acc.cleaned ++ [cmd] }
      else if cmd = "play" then
        scanPending rest { acc with play_count := acc.play_count + 1 }
      else
        scanPending rest acc

/-- The deduplicated sequence of deferred commands that
`process_pending_commands` actually executes (`player.py:235-260`). -/
def cleanedCommands (pending : List String) : List String :=
  let acc := scanPending pending ⟨[], false, false, false, false, 0⟩
  if !acc.has_stop && !acc.has_next && !acc.has_prev && acc.play_count > 0 then
    "play" :: acc.cleaned
  else acc.cleaned

/-- `AudioPlayer.process_pending_commands` (`player.py:231-269`): on an empty
queue return immediately; otherwise execute the cleaned command sequence
through `handle_command` and clear the queue. -/
def process_pending_commands (env : Env) (s : PState) : PState :=
  if s.pending_commands = [] then s
  else
    let s := (cleanedCommands s.pending_commands).foldl (handle_command env) s
    { s with pending_commands := [] }

/-! ## VLC track selection (`vlc_player.py`) -/

/-- `VLCPlayer.play_track` (`vlc_player.py:163-207`): fail when the path is
empty or missing on disk; on a successful start record the path as the
current track. The returned flag is the Python boolean result. -/
def play_track (env : Env) (s : PState) (filepath : String)
    : Bool × PState :=
  if filepath = "" || !env.fileExists filepath then (false, s)
  else if env.playOk filepath then
    (true, { s with vlc := { s.vlc with current_track_path := some filepath } })
  else (false, s)

/-- The body of `VLCPlayer.play_next_track` after the index clamp
(`vlc_player.py:219-228`): dereference the cache listing Python-style, and on
success record the track, advance the index past it and persist. -/
def play_next_from (env : Env) (s : PState) : Option (Bool × PState) :=
  match pyIndex? s.mainCache s.cfg.current_track_index with
  | none => none
  | some track =>
      match play_track env s track with
      | (true, s2) =>
          some (true, saveState { s2 with
              vlc := { s2.vlc with
                  current_track_path := some track,
                  pause_position := 0,
                  was_paused := false },
              cfg := { s2.cfg with
                  current_track_index := s2.cfg.current_track_index + 1 } })
      | (false, s2) => some (false, s2)

/-- `VLCPlayer.play_next_track` (`vlc_player.py:209-228`): clamp an index
`≥ len` to `0` (a negative index is *not* corrected), then play at the
resulting index. `none` models an `IndexError` escaping. -/
def play_next_track (env : Env) (s : PState) : Option (Bool × PState) :=
  if s.mainCache = [] then some (false, s)
  else
    play_next_from env
      (if s.cfg.current_track_index ≥ (s.mainCache.length : Int) then
        { s with cfg := { s.cfg with current_track_index := 0 } }
      else s)

/-- The body of `VLCPlayer.play_ad` after the ad-index clamp
(`vlc_player.py:239-245`): play the ad at the (Python-dereferenced) index and
on success advance the ad index and persist. -/
def vlc_play_ad_from (env : Env) (s : PState) : Option (Bool × PState) :=
  match pyIndex? s.adCache s.cfg.current_ad_index with
  | none => none
  | some ad_track =>
      match play_track env s ad_track with
      | (true, s2) =>
          some (true, saveState { s2 with
              cfg := { s2.cfg with
                  current_ad_index := s2.cfg.current_ad_index + 1 } })
      | (false, s2) => some (false, s2)

/-- `VLCPlayer.play_ad` (`vlc_player.py:230-245`): clamp an ad index `≥ len`
to `0`, then play at the resulting index. `none` models an `IndexError`
escaping. -/
def vlc_play_ad (env : Env) (s : PState) : Option (Bool × PState) :=
  if s.adCache = [] then some (false, s)
  else
    vlc_play_ad_from env
      (if s.cfg.current_ad_index ≥ (s.adCache.length : Int) then
        { s with cfg := { s.cfg with current_ad_index := 0 } }
      else s)

/-! ## The ad-insertion sequence (`AudioPlayer.play_ad`) -/

/-- The post-ad resume logic of `AudioPlayer.play_ad` (`player.py:366-393`):
consume the `pending_ad_resume_state` attribute when present and either resume
the interrupted track or fall back to `play_next_track`; when the attribute is
absent (`hasattr` false, the `else` of `player.py:391`) fall back to
`play_next_track` directly. -/
def adResume (env : Env) (s : PState) : Option PState :=
  match s.pending_ad_resume_attr with
  | none => (play_next_track env s).map Prod.snd
  | some v =>
      let s := { s with pending_ad_resume_attr := none }
      match v with
      | some rs =>
          match rs.track_path with
          | some p =>
              if p ≠ "" then
                if env.fileExists p then
                  let r := play_track env s p
                  if r.1 then
                    some { r.2 with vlc := { r.2.vlc with
                        current_track_path := some p,
                        pause_position := rs.pause_position,
                        was_paused := false } }
                  else (play_next_track env s).map Prod.snd
                else (play_next_track env s).map Prod.snd
              else (play_next_track env s).map Prod.snd
          | none => (play_next_track env s).map Prod.snd
      | none => (play_next_track env s).map Prod.snd

/-- The tail of `AudioPlayer.play_ad` after a successful ad and timer reset
(`player.py:366-397`): run the resume policy, then replay any deferred
commands. -/
def playAdFinish (env : Env) (s : PState) : Option (PState × Bool) :=
  match adResume env s with
  | none => none
  | some s =>
      if s.pending_commands ≠ [] then
        some (process_pending_commands env s, true)
      else some (s, true)

/-- `AudioPlayer.play_ad` (`player.py:323-397`). The second component is
whether ad playback was invoked on the media engine. The media parse for the
display (`player.py:342-351`) and the display updates have no orchestration
state. `none` models an escaping `IndexError`. -/
def playAd (env : Env) (s : PState) : Option (PState × Bool) :=
  if !s.cfg.ads_enabled then some (s, false)
  else if s.adCache = [] then
    some (saveState { s with
        cfg := { s.cfg with total_playback_time_since_last_ad := 0 } }, false)
  else
    match vlc_play_ad env { s with is_playing_ad := true } with
    | none => none
    | some (false, s) =>
        -- `if self.vlc_player.play_ad():` failed: the whole success block
        -- (`player.py:354-397`) is skipped and the function simply returns
        some (s, true)
    | some (true, s) =>
        playAdFinish env
          (saveState { s with
              is_playing_ad := false,
              cfg := { s.cfg with
                  total_playback_time_since_last_ad := 0,
                  last_minute_log := 0 } })

/-! ## Cache reconciliation (`APIClient.clean_removed_tracks`) -/

/-- Is a disk file name considered by the cleanup scan for the given prefix
(`api_client.py:336-339`): it must start with the kind prefix and end in
`.mp3` or `.tmp`. -/
def isCandidate (pfx : String) (f : String) : Bool :=
  strStarts f.data pfx.data &&
    (strEnds f.data ".mp3".data || strEnds f.data ".tmp".data)

/-- The `wanted_filenames` set of `clean_removed_tracks`
(`api_client.py:327-331`): the prefixed derived name of every truthy URL of
the new playlist. -/
def wantedFilenames (new_list : List String) (pfx : String) : List String :=
  (new_list.filter (fun u => u ≠ "")).map (fun u => pfx ++ normalizeFilename u)

/-- `APIClient.clean_removed_tracks` (`api_client.py:319-377`) acting on the
cache-directory listing `disk`. Returns the list of deleted names together
with the resulting listing. The `old_list` argument is accepted exactly as in
the source, whose body never reads it; the currently-playing check only
influences the boolean the source returns (not modelled) and the deletions
are unconditional best-effort unlinks. -/
def clean_removed_tracks (old_list new_list : List String)
    (track_type : String) (disk : List String) : List String × List String :=
  let pfx := pfxOf track_type
  let wanted := wantedFilenames new_list pfx
  let existing := disk.filter (isCandidate pfx)
  let toRemove := existing.filter (fun f => !(wanted.contains f))
  (toRemove, disk.filter (fun f => !(toRemove.contains f)))

/-- Derived names of a URL list, as the spec's `filenames(·)` notation:
`{filename(u, kind) : u ∈ urls}`. Modelled from the spec wording, used only
to compare the spec's claimed deletion set against the code's. -/
def specFilenames (urls : List String) (pfx : String) : List String :=
  wantedFilenames urls pfx

/-- The deletion set the spec claims for `reconcile(old, new, kind)`:
`filenames(old) \ filenames(new)`. Modelled from the spec wording. -/
def specDeletedSet (old_list new_list : List String) (pfx : String)
    : List String :=
  (specFilenames old_list pfx).filter
    (fun f => !((specFilenames new_list pfx).contains f))

/-! ## Atomic downloads (`APIClient.download_track_safe`) -/

/-- A cache directory with file sizes: list of (name, size-in-bytes). -/
abbrev Disk := List (String × Nat)

/-- Does a file with this name exist? -/
def diskHas (d : Disk) (n : String) : Bool := d.any (fun p => p.1 = n)

/-- Size of the named file (0 if absent). -/
def diskSize (d : Disk) (n : String) : Nat :=
  ((d.find? (fun p => p.1 = n)).map Prod.snd).getD 0

/-- `unlink`: remove the named file. -/
def diskRemove (d : Disk) (n : String) : Disk :=
  d.filter (fun p => !(p.1 = n))

/-- Create/overwrite the named file with the given size (`open(..., 'wb')`
truncates, `Path.replace` overwrites). -/
def diskWrite (d : Disk) (n : String) (sz : Nat) : Disk :=
  diskRemove d n ++ [(n, sz)]

/-- `Path.with_suffix('.tmp')` on a bare file name: replace the extension
after the last qualifying dot, or append when there is none. -/
def withSuffixTmp (name : String) : String :=
  let ne := splitExt name.data
  ⟨ne.1 ++ ".tmp".data⟩

/-- How a streamed transfer ends, covering every exit of the download loop of
`download_track_safe` (`api_client.py:465-525`):
* `reqFail` — `requests.get`/`raise_for_status` raised before the temporary
  file was created;
* `removedDuring w` — the per-chunk playlist re-check found the URL gone
  after `w` bytes were written: abort, delete the partial file;
* `interrupted w` — an exception after `w` bytes were written;
* `complete total` — the full body of `total` bytes was streamed. -/
inductive DLOutcome where
  | reqFail
  | removedDuring (written : Nat)
  | interrupted (written : Nat)
  | complete (total : Nat)
  deriving Repr, DecidableEq

/-- The zero-byte cleanup of the downloader's `except` branch
(`api_client.py:518-523`): remove the final file only when it exists with
size 0. -/
def zeroByteSweep (d : Disk) (fname : String) : Disk :=
  if diskHas d fname && diskSize d fname = 0 then diskRemove d fname else d

/-- The streaming part of `download_track_safe` (`api_client.py:465-525`),
after URL validation and the cached-entry check, on the directory `d1` (with
any corrupt small final file already removed):
* `reqFail`: the temporary file was never created (`temp_filepath` is not in
  `locals()`), so only the zero-byte sweep runs;
* `removedDuring w`: the partial temporary file of `w` bytes is unlinked and
  the function returns `None` from inside the write loop;
* `interrupted w`: the `except` branch unlinks the temporary file and runs
  the zero-byte sweep;
* `complete total`: `temp_filepath.replace(filepath)` atomically moves the
  fully streamed file to its final name. -/
def download_body (fname tmp : String) (d1 : Disk) :
    DLOutcome → Option String × Disk
  | .reqFail => (none, zeroByteSweep d1 fname)
  | .removedDuring w => (none, diskRemove (diskWrite d1 tmp w) tmp)
  | .interrupted w =>
      (none, zeroByteSweep (diskRemove (diskWrite d1 tmp w) tmp) fname)
  | .complete total =>
      (some fname, diskWrite (diskRemove (diskWrite d1 tmp total) tmp)
        fname total)

/-- `APIClient.download_track_safe` (`api_client.py:437-525`) acting on the
cache directory `disk`. Returns the Python result (`some path` / `None`) and
the resulting directory. -/
def download_track_safe (netOk : Bool) (url : String) (track_type : String)
    (disk : Disk) (out : DLOutcome) : Option String × Disk :=
  if url = "" || !netOk then (none, disk)
  else if !(strStarts url.data "http://".data ||
            strStarts url.data "https://".data) then (none, disk)
  else if diskHas disk (pfxOf track_type ++ normalizeFilename url) &&
          diskSize disk (pfxOf track_type ++ normalizeFilename url) > 1024 then
    -- valid cached entry: short-circuit
    (some (pfxOf track_type ++ normalizeFilename url), disk)
  else
    -- a too-small existing file is deleted as corrupt before downloading
    download_body (pfxOf track_type ++ normalizeFilename url)
      (withSuffixTmp (pfxOf track_type ++ normalizeFilename url))
      (if diskHas disk (pfxOf track_type ++ normalizeFilename url) then
        diskRemove disk (pfxOf track_type ++ normalizeFilename url)
      else disk)
      out

/-! ## Concrete fixtures used by witnesses and counterexamples -/

/-- Fresh configuration, as initialised in `ConfigManager.__init__`. -/
def cfg0 : Config := ⟨0, 0, 0, 0, true, 5, none⟩

/-- Fresh VLC state, as initialised in `VLCPlayer.__init__`. -/
def vlc0 : VlcState := ⟨none, 0, false⟩

/-- Fresh player state, as initialised in `AudioPlayer.__init__`
(`pending_ad_resume_state = None`). -/
def st0 : PState := ⟨false, false, false, false, [], some none, cfg0, vlc0, [], []⟩

/-- An environment where every file exists and every play call succeeds. -/
def env0 : Env := ⟨fun _ => true, fun _ => true, false, 0, true⟩

/-- An environment where every play call fails (media engine down). -/
def envFail : Env := ⟨fun _ => true, fun _ => false, false, 0, true⟩

/-! ## Lemmas about the deferred-command scan -/

/-- Once a `stop` is in the queue, the scan loop ends with `has_stop` set and
the accumulated list overwritten with `["stop"]`. -/
lemma scanPending_stop (l : List String) (acc : ScanState) (h : "stop" ∈ l) :
    (scanPending l acc).has_stop = true ∧
    (scanPending l acc).cleaned = ["stop"] := by
  induction l generalizing acc with
  | nil => cases h
  | cons c rest ih =>
      by_cases hc : c = "stop"
      · subst hc
        simp [scanPending]
      · have hr : "stop" ∈ rest := by
          rcases List.mem_cons.mp h with h1 | h1
          · exact absurd h1.symm hc
          · exact h1
        simp only [scanPending, if_neg hc]
        split
        · exact ih _ hr
        · split
          · exact ih _ hr
          · split
            · exact ih _ hr
            · split
              · exact ih _ hr
              · exact ih _ hr

/-- Every command the scan ever appends is one of
`stop`/`next`/`previous`/`pause`. -/
lemma scanPending_mem (l : List String) (acc : ScanState) (c : String)
    (h : c ∈ (scanPending l acc).cleaned) :
    c ∈ acc.cleaned ∨
      c ∈ (["stop", "next", "previous", "pause"] : List String) := by
  induction l generalizing acc with
  | nil => exact Or.inl h
  | cons hd rest ih =>
      simp only [scanPending] at h
      by_cases h1 : hd = "stop"
      · rw [if_pos h1] at h
        simp only [List.mem_singleton] at h
        right; simp [h]
      rw [if_neg h1] at h
      by_cases h2 : hd = "next"
      · rw [if_pos h2] at h
        rcases ih _ h with hc | hc
        · rcases List.mem_append.mp hc with h3 | h3
          · exact Or.inl h3
          · right
            simp only [List.mem_singleton] at h3
            simp [h3, h2]
        · exact Or.inr hc
      rw [if_neg h2] at h
      by_cases h3 : hd = "previous"
      · rw [if_pos h3] at h
        rcases ih _ h with hc | hc
        · rcases List.mem_append.mp hc with h4 | h4
          · exact Or.inl h4
          · right
            simp only [List.mem_singleton] at h4
            simp [h4, h3]
        · exact Or.inr hc
      rw [if_neg h3] at h
      by_cases h4 : hd = "pause"
      · rw [if_pos h4] at h
        rcases ih _ h with hc | hc
        · rcases List.mem_append.mp hc with h5 | h5
          · exact Or.inl h5
          · right
            simp only [List.mem_singleton] at h5
            simp [h5, h4]
        · exact Or.inr hc
      rw [if_neg h4] at h
      by_cases h5 : hd = "play"
      · rw [if_pos h5] at h
        exact ih { acc with play_count := acc.play_count + 1 } h
      · rw [if_neg h5] at h
        exact ih acc h

/-- A queue containing `stop` always replays as exactly `["stop"]`. -/
lemma cleanedCommands_stop (pending : List String) (h : "stop" ∈ pending) :
    cleanedCommands pending = ["stop"] := by
  obtain ⟨h1, h2⟩ := scanPending_stop pending ⟨[], false, false, false, false, 0⟩ h
  simp [cleanedCommands, h1, h2]

/-- Queue fixture for C4. -/
def stC4 : PState := { st0 with pending_commands := ["play", "play", "next"] }

/-- Queue fixture for C5. -/
def stC5 : PState :=
  { st0 with pending_commands := ["play", "next", "pause", "stop"] }

/-- **C4** (counterexample): the claim says the queue `[play, play, next]`
replays as `[play, next]`; on the code it replays as `[next]`, because the
leading `play` is only re-inserted when the queue contains no
`stop`/`next`/`previous` (`player.py:259-260`). -/
theorem C4_cex :
    cleanedCommands ["play", "play", "next"] = ["next"] ∧
    cleanedCommands ["play", "play", "next"] ≠ ["play", "next"] :=
  ⟨by decide, by decide⟩

/-- **C4** (amended): for the deferred queue `[play, play, next]` the replay
performed when the ad finishes executes exactly `["next"]`: the `play`
entries are dropped since the queue contains `next`, and the queue is then
cleared. -/
theorem C4_replay_play_play_next (env : Env) (s : PState)
    (h : s.pending_commands = ["play", "play", "next"]) :
    cleanedCommands s.pending_commands = ["next"] ∧
    process_pending_commands env s =
      { handle_command env s "next" with pending_commands := [] } := by
  constructor
  · rw [h]; decide
  · unfold process_pending_commands
    rw [h, if_neg (by decide),
        show cleanedCommands ["play", "play", "next"] = ["next"] from by decide]
    rfl

/-- Witness for C4 at a concrete state. -/
theorem C4_replay_play_play_next_witness :
    stC4.pending_commands = ["play", "play", "next"] ∧
    (cleanedCommands stC4.pending_commands = ["next"] ∧
     process_pending_commands env0 stC4 =
       { handle_command env0 stC4 "next" with pending_commands := [] }) :=
  ⟨rfl, C4_replay_play_play_next env0 stC4 rfl⟩

/-- **C5**: a deferred queue containing `stop` replays as exactly `["stop"]`;
in particular `[play, next, pause, stop]` discards everything but the `stop`,
which is then executed and the queue cleared. -/
theorem C5_stop_discards_rest :
    (∀ pending : List String, "stop" ∈ pending →
      cleanedCommands pending = ["stop"]) ∧
    (∀ (env : Env) (s : PState),
      s.pending_commands = ["play", "next", "pause", "stop"] →
      process_pending_commands env s =
        { handle_command env s "stop" with pending_commands := [] }) := by
  refine ⟨cleanedCommands_stop, ?_⟩
  intro env s h
  unfold process_pending_commands
  rw [h, if_neg (by decide),
      show cleanedCommands ["play", "next", "pause", "stop"] = ["stop"] from
        by decide]
  rfl

/-- Witness for C5 at a concrete queue and state. -/
theorem C5_stop_discards_rest_witness :
    ("stop" ∈ (["play", "next", "pause", "stop"] : List String) ∧
      cleanedCommands ["play", "next", "pause", "stop"] = ["stop"]) ∧
    (stC5.pending_commands = ["play", "next", "pause", "stop"] ∧
      process_pending_commands env0 stC5 =
        { handle_command env0 stC5 "stop" with pending_commands := [] }) :=
  ⟨⟨by decide, C5_stop_discards_rest.1 _ (by decide)⟩,
   ⟨rfl, C5_stop_discards_rest.2 env0 stC5 rfl⟩⟩

/-- **C9**: the replay only ever executes commands from
`{stop, next, previous, pause, play}` — a deferred `refresh`, `reboot` or
unknown command is dropped when the queue is cleaned. -/
theorem C9_replay_alphabet (pending : List String) (c : String)
    (h : c ∈ cleanedCommands pending) :
    c ∈ (["stop", "next", "previous", "pause", "play"] : List String) := by
  have sub : ∀ x : String,
      x ∈ (["stop", "next", "previous", "pause"] : List String) →
      x ∈ (["stop", "next", "previous", "pause", "play"] : List String) := by
    intro x hx
    simp only [List.mem_cons, List.mem_singleton] at hx ⊢
    tauto
  simp only [cleanedCommands] at h
  split at h
  · rcases List.mem_cons.mp h with h1 | h1
    · simp [h1]
    · rcases scanPending_mem _ _ _ h1 with h2 | h2
      · cases h2
      · exact sub _ h2
  · rcases scanPending_mem _ _ _ h with h2 | h2
    · cases h2
    · exact sub _ h2

/-- Witness for C9: a deferred `refresh` is dropped and the surviving `next`
lies in the allowed alphabet. -/
theorem C9_replay_alphabet_witness :
    "next" ∈ cleanedCommands ["refresh", "next"] ∧
    "next" ∈ (["stop", "next", "previous", "pause", "play"] : List String) :=
  ⟨by decide, C9_replay_alphabet ["refresh", "next"] "next" (by decide)⟩

/-! ## The `stop`, `next` and `previous` branches of `handle_command` -/

/-- Unfolding of the (non-deferred) `stop` branch (`player.py:141-151`). -/
lemma handle_command_stop (env : Env) (s : PState)
    (h : s.is_playing_ad = false) :
    handle_command env s "stop" =
      saveState { s with
          is_playing := false,
          is_paused := false,
          cfg := { s.cfg with
              current_track_index := 0,
              total_playback_time_since_last_ad := 0 } } := by
  unfold handle_command
  rw [if_neg (by decide), if_neg (by simp [h]), if_neg (by decide),
      if_neg (by decide), if_pos rfl]

/-- Unfolding of the (non-deferred) `next` branch (`player.py:153-164`). -/
lemma handle_command_next (env : Env) (s : PState)
    (h : s.is_playing_ad = false) :
    handle_command env s "next" =
      saveState
        (if s.mainCache ≠ [] then
          if s.cfg.current_track_index ≥ (s.mainCache.length : Int) then
            { s with cfg := { s.cfg with current_track_index := 0 } }
          else s
        else s) := by
  unfold handle_command
  rw [if_neg (by decide), if_neg (by simp [h]), if_neg (by decide),
      if_neg (by decide), if_neg (by decide), if_pos rfl]

/-- Unfolding of the (non-deferred) `previous` branch (`player.py:166-179`). -/
lemma handle_command_previous (env : Env) (s : PState)
    (h : s.is_playing_ad = false) :
    handle_command env s "previous" =
      saveState
        (if s.mainCache ≠ [] then
          let i := pymod (s.cfg.current_track_index - 2) s.mainCache.length
          let i := if i < 0 then (s.mainCache.length : Int) - 1 else i
          { s with cfg := { s.cfg with current_track_index := i } }
        else s) := by
  unfold handle_command
  rw [if_neg (by decide), if_neg (by simp [h]), if_neg (by decide),
      if_neg (by decide), if_neg (by decide), if_neg (by decide), if_pos rfl]

/-- `pymod` into a positive modulus is non-negative. -/
lemma pymod_nonneg (a : Int) {b : Int} (hb : 0 < b) : 0 ≤ pymod a b :=
  Int.emod_nonneg _ (ne_of_gt hb)

/-- `pymod` into a positive modulus is below the modulus. -/
lemma pymod_lt (a : Int) {b : Int} (hb : 0 < b) : pymod a b < b :=
  Int.emod_lt_of_pos _ hb

/-- Fixture for the C1 counterexample: a stopped player whose ad timer has
accumulated 42 seconds. -/
def stC1 : PState :=
  { st0 with cfg := { cfg0 with total_playback_time_since_last_ad := 42,
                                current_track_index := 3 } }

/-- **C1** (counterexample): the claim says the stop handler leaves
`total_playback_time_since_last_ad` unchanged; on the code it zeroes it
(`player.py:146`), as the concrete run from 42 shows. -/
theorem C1_cex :
    (handle_command env0 stC1 "stop").cfg.total_playback_time_since_last_ad
        = 0 ∧
    stC1.cfg.total_playback_time_since_last_ad = 42 := by
  exact ⟨by decide, by decide⟩

/-- **C1** (amended): the (non-deferred) stop handler halts playback, resets
`current_track_index` to 0, **also resets the ad timer to 0**, and persists
the state. -/
theorem C1_stop_effect (env : Env) (s : PState)
    (h : s.is_playing_ad = false) :
    (handle_command env s "stop").cfg.current_track_index = 0 ∧
    (handle_command env s "stop").cfg.total_playback_time_since_last_ad = 0 ∧
    (handle_command env s "stop").cfg.savedState =
      some ⟨0, s.cfg.current_ad_index, 0⟩ ∧
    (handle_command env s "stop").is_playing = false ∧
    (handle_command env s "stop").is_paused = false := by
  rw [handle_command_stop env s h]
  exact ⟨rfl, rfl, rfl, rfl, rfl⟩

/-- Witness for C1 at the concrete state `stC1`. -/
theorem C1_stop_effect_witness :
    stC1.is_playing_ad = false ∧
    ((handle_command env0 stC1 "stop").cfg.current_track_index = 0 ∧
     (handle_command env0 stC1 "stop").cfg.total_playback_time_since_last_ad
        = 0 ∧
     (handle_command env0 stC1 "stop").cfg.savedState =
       some ⟨0, stC1.cfg.current_ad_index, 0⟩ ∧
     (handle_command env0 stC1 "stop").is_playing = false ∧
     (handle_command env0 stC1 "stop").is_paused = false) :=
  ⟨rfl, C1_stop_effect env0 stC1 rfl⟩

/-- Fixture for the C7 counterexample: three cached tracks, index 1. -/
def stC7 : PState :=
  { st0 with
      mainCache := ["main_a.mp3", "main_b.mp3", "main_c.mp3"],
      cfg := { cfg0 with current_track_index := 1 } }

/-- **C7** (counterexample): the claim says `next` adds `+1` modulo the cache
length; on the code the `next` handler leaves an in-range index unchanged
(`player.py:153-159`), as index 1 of a 3-track cache shows. -/
theorem C7_cex :
    (handle_command env0 stC7 "next").cfg.current_track_index = 1 ∧
    pymod (stC7.cfg.current_track_index + 1) stC7.mainCache.length = 2 := by
  exact ⟨by decide, by decide⟩

/-- **C7** (amended): for a non-empty cache of length `L`, the `next` handler
does not add 1 — it resets an index `≥ L` to 0 and otherwise leaves the index
unchanged (it already points past the just-played track) — while the
`previous` handler sets the index to `(i − 2) mod L`, which always lies in
`[0, L)` (Python's modulo never yields a negative result for `L > 0`, so the
source's negative-clamp guard is dead code). -/
theorem C7_next_previous_effect (env : Env) (s : PState)
    (hAd : s.is_playing_ad = false) (hNE : s.mainCache ≠ []) :
    (handle_command env s "next").cfg.current_track_index =
      (if s.cfg.current_track_index ≥ (s.mainCache.length : Int) then 0
       else s.cfg.current_track_index) ∧
    (handle_command env s "previous").cfg.current_track_index =
      pymod (s.cfg.current_track_index - 2) s.mainCache.length ∧
    0 ≤ pymod (s.cfg.current_track_index - 2) s.mainCache.length ∧
    pymod (s.cfg.current_track_index - 2) s.mainCache.length <
      (s.mainCache.length : Int) := by
  have hlen : (0 : Int) < s.mainCache.length := by
    exact_mod_cast List.length_pos.mpr hNE
  refine ⟨?_, ?_, pymod_nonneg _ hlen, pymod_lt _ hlen⟩
  · rw [handle_command_next env s hAd, if_pos hNE]
    split <;> rfl
  · rw [handle_command_previous env s hAd, if_pos hNE]
    simp only []
    rw [if_neg (not_lt.mpr (pymod_nonneg _ hlen))]
    rfl

/-! ## Index safety of track selection (C3) and the ad sequence (C8, C10) -/

/-- `play_track` never touches the configuration, the playlists, the deferred
queue or the ad flag — only the VLC fields. -/
lemma play_track_frame (env : Env) (s : PState) (p : String) :
    (play_track env s p).2.cfg = s.cfg ∧
    (play_track env s p).2.is_playing_ad = s.is_playing_ad ∧
    (play_track env s p).2.pending_commands = s.pending_commands ∧
    (play_track env s p).2.mainCache = s.mainCache ∧
    (play_track env s p).2.adCache = s.adCache := by
  unfold play_track
  split_ifs <;> exact ⟨rfl, rfl, rfl, rfl, rfl⟩

/-- A Python subscript with an index in `[0, len)` succeeds. -/
lemma pyIndex_some {α : Type} (l : List α) (i : Int) (h0 : 0 ≤ i)
    (h1 : i < (l.length : Int)) : ∃ a, pyIndex? l i = some a := by
  unfold pyIndex?
  rw [if_pos h0]
  have hlt : i.toNat < l.length := by omega
  exact ⟨l.get ⟨i.toNat, hlt⟩, List.get?_eq_get hlt⟩

/-- After the clamp, `play_next_from` returns without an exception and leaves
the index in `[0, len]`. -/
lemma play_next_from_bounds (env : Env) (s : PState)
    (h0 : 0 ≤ s.cfg.current_track_index)
    (h1 : s.cfg.current_track_index < (s.mainCache.length : Int)) :
    ∃ b s2, play_next_from env s = some (b, s2) ∧
      0 ≤ s2.cfg.current_track_index ∧
      s2.cfg.current_track_index ≤ (s.mainCache.length : Int) := by
  obtain ⟨a, ha⟩ := pyIndex_some s.mainCache s.cfg.current_track_index h0 h1
  unfold play_next_from
  simp only [ha]
  rcases hp : play_track env s a with ⟨b, s2⟩
  have hcfg : s2.cfg = s.cfg := by
    have hf := (play_track_frame env s a).1
    rw [hp] at hf
    exact hf
  cases b
  · simp only [hp]
    exact ⟨false, s2, rfl, by rw [hcfg]; exact h0, by rw [hcfg]; exact le_of_lt h1⟩
  · simp only [hp]
    refine ⟨true, _, rfl, ?_, ?_⟩
    · show 0 ≤ s2.cfg.current_track_index + 1
      rw [hcfg]
      omega
    · show s2.cfg.current_track_index + 1 ≤ (s.mainCache.length : Int)
      rw [hcfg]
      omega

/-- **C3** (counterexample): the claim says a tick that selects a track leaves
`0 ≤ index < N` and corrects a negative index before dereference. With one
cached track at index 0 a successful selection leaves the index at `1 = N`;
with two cached tracks and index `-2` the tick dereferences the list
Python-style and leaves the index at `-1` — negative indices are not
corrected. -/
theorem C3_cex :
    ((play_next_track env0 { st0 with mainCache := ["main_t.mp3"] }).map
        (fun r => r.2.cfg.current_track_index) = some 1 ∧
      ¬((1 : Int) <
        (({ st0 with mainCache := ["main_t.mp3"] } : PState).mainCache.length
          : Int))) ∧
    (play_next_track env0
        { st0 with
            mainCache := ["main_a.mp3", "main_b.mp3"],
            cfg := { cfg0 with current_track_index := -2 } }).map
      (fun r => r.2.cfg.current_track_index) = some (-1) :=
  ⟨⟨by decide, by decide⟩, by decide⟩

/-- **C3** (amended): for any non-negative starting index, one selection tick
never raises: when the cache is empty the state is untouched, and otherwise
the resulting index lies in `[0, N]` (it equals the successor of the clamped
selection index on success, so it may equal `N`; it is clamped back at the
start of the next tick). A negative starting index is *not* corrected before
the dereference. -/
theorem C3_index_safety (env : Env) (s : PState)
    (hIdx : 0 ≤ s.cfg.current_track_index) :
    (s.mainCache = [] → play_next_track env s = some (false, s)) ∧
    (s.mainCache ≠ [] → ∃ b s2, play_next_track env s = some (b, s2) ∧
      0 ≤ s2.cfg.current_track_index ∧
      s2.cfg.current_track_index ≤ (s.mainCache.length : Int)) := by
  constructor
  · intro h
    unfold play_next_track
    rw [if_pos h]
  · intro hNE
    have hlen : (0 : Int) < (s.mainCache.length : Int) := by
      exact_mod_cast List.length_pos.mpr hNE
    unfold play_next_track
    rw [if_neg hNE]
    by_cases hge : s.cfg.current_track_index ≥ (s.mainCache.length : Int)
    · rw [if_pos hge]
      exact play_next_from_bounds env
        { s with cfg := { s.cfg with current_track_index := 0 } }
        (le_refl 0) hlen
    · rw [if_neg hge]
      exact play_next_from_bounds env s hIdx (lt_of_not_ge hge)

/-- Witness for C3 at a concrete two-track state. -/
theorem C3_index_safety_witness :
    (0 : Int) ≤
      ({ st0 with mainCache := ["main_a.mp3", "main_b.mp3"] }
        : PState).cfg.current_track_index ∧
    ((({ st0 with mainCache := ["main_a.mp3", "main_b.mp3"] } : PState).mainCache
        = [] →
      play_next_track env0 { st0 with mainCache := ["main_a.mp3", "main_b.mp3"] }
        = some (false, { st0 with mainCache := ["main_a.mp3", "main_b.mp3"] })) ∧
     (({ st0 with mainCache := ["main_a.mp3", "main_b.mp3"] } : PState).mainCache
        ≠ [] →
      ∃ b s2, play_next_track env0
          { st0 with mainCache := ["main_a.mp3", "main_b.mp3"] } = some (b, s2) ∧
        0 ≤ s2.cfg.current_track_index ∧
        s2.cfg.current_track_index ≤
          ((({ st0 with mainCache := ["main_a.mp3", "main_b.mp3"] }
            : PState).mainCache.length) : Int))) :=
  ⟨by decide,
   C3_index_safety env0 { st0 with mainCache := ["main_a.mp3", "main_b.mp3"] }
     (by decide)⟩

/-- Fixture for the C8 counterexample: ads disabled with 7 accumulated
seconds on the ad timer. -/
def stC8 : PState :=
  { st0 with cfg := { cfg0 with ads_enabled := false,
                                total_playback_time_since_last_ad := 7 } }

/-- **C8** (counterexample): the claim says that with ads disabled the ad
sequence still resets the timer to 0; on the code `play_ad` returns
immediately (`player.py:324-325`) and the 7-second timer survives. -/
theorem C8_cex :
    playAd env0 stC8 = some (stC8, false) ∧
    stC8.cfg.total_playback_time_since_last_ad ≠ 0 :=
  ⟨by decide, by decide⟩

/-- **C8** (amended): when ads are disabled, `play_ad` returns without
invoking playback *and without touching the timer*; only when ads are enabled
but the ad cache is empty does it reset the timer to 0 (and persist) without
invoking playback. -/
theorem C8_disabled_or_empty (env : Env) (s : PState) :
    (s.cfg.ads_enabled = false → playAd env s = some (s, false)) ∧
    (s.cfg.ads_enabled = true → s.adCache = [] →
      playAd env s =
        some (saveState { s with
            cfg := { s.cfg with total_playback_time_since_last_ad := 0 } },
          false)) := by
  constructor
  · intro h
    unfold playAd
    rw [h, if_pos (by decide)]
  · intro h1 h2
    unfold playAd
    rw [h1, if_neg (by decide), if_pos h2]

/-- Witness for C8 at concrete states for both cases. -/
theorem C8_disabled_or_empty_witness :
    (stC8.cfg.ads_enabled = false ∧ playAd env0 stC8 = some (stC8, false)) ∧
    (st0.cfg.ads_enabled = true ∧ st0.adCache = [] ∧
      playAd env0 st0 =
        some (saveState { st0 with
            cfg := { st0.cfg with total_playback_time_since_last_ad := 0 } },
          false)) :=
  ⟨⟨rfl, (C8_disabled_or_empty env0 stC8).1 rfl⟩,
   ⟨rfl, rfl, (C8_disabled_or_empty env0 st0).2 rfl rfl⟩⟩

/-- When every play call fails, the (non-empty-cache) VLC ad routine returns
`False` having at most clamped the ad index. -/
lemma vlc_play_ad_from_fail (env : Env) (s : PState)
    (h0 : 0 ≤ s.cfg.current_ad_index)
    (h1 : s.cfg.current_ad_index < (s.adCache.length : Int))
    (hFail : ∀ t, env.playOk t = false) :
    vlc_play_ad_from env s = some (false, s) := by
  obtain ⟨a, ha⟩ := pyIndex_some s.adCache s.cfg.current_ad_index h0 h1
  unfold vlc_play_ad_from
  simp only [ha]
  have hp : play_track env s a = (false, s) := by
    unfold play_track
    split_ifs with hc1 hc2
    · rfl
    · rw [hFail a] at hc2
      cases hc2
    · rfl
  simp only [hp]

/-- When every play call fails, `vlc_play_ad` on a non-empty ad cache returns
`False` with the orchestration-relevant state untouched. -/
lemma vlc_play_ad_fail (env : Env) (s : PState) (hNE : s.adCache ≠ [])
    (h0 : 0 ≤ s.cfg.current_ad_index)
    (hFail : ∀ t, env.playOk t = false) :
    ∃ s2, vlc_play_ad env s = some (false, s2) ∧
      s2.is_playing_ad = s.is_playing_ad ∧
      s2.cfg.total_playback_time_since_last_ad =
        s.cfg.total_playback_time_since_last_ad ∧
      s2.pending_commands = s.pending_commands := by
  have hlen : (0 : Int) < (s.adCache.length : Int) := by
    exact_mod_cast List.length_pos.mpr hNE
  unfold vlc_play_ad
  rw [if_neg hNE]
  by_cases hge : s.cfg.current_ad_index ≥ (s.adCache.length : Int)
  · rw [if_pos hge]
    exact ⟨_, vlc_play_ad_from_fail env
        { s with cfg := { s.cfg with current_ad_index := 0 } }
        (le_refl 0) hlen hFail, rfl, rfl, rfl⟩
  · rw [if_neg hge]
    exact ⟨s, vlc_play_ad_from_fail env s h0 (lt_of_not_ge hge) hFail,
      rfl, rfl, rfl⟩

/-- **C10**: if the media engine fails to start the ad, `play_ad` returns with
`is_playing_ad` still `true`, the ad timer not reset, and the deferred queue
untouched (neither replayed nor cleared) — every later command keeps being
deferred. -/
theorem C10_engine_failure (env : Env) (s : PState)
    (hEn : s.cfg.ads_enabled = true) (hNE : s.adCache ≠ [])
    (hIdx : 0 ≤ s.cfg.current_ad_index)
    (hFail : ∀ t, env.playOk t = false) :
    ∃ s2, playAd env s = some (s2, true) ∧
      s2.is_playing_ad = true ∧
      s2.cfg.total_playback_time_since_last_ad =
        s.cfg.total_playback_time_since_last_ad ∧
      s2.pending_commands = s.pending_commands := by
  unfold playAd
  rw [hEn, if_neg (by decide), if_neg hNE]
  obtain ⟨s2, heq, hA, hT, hP⟩ :=
    vlc_play_ad_fail env { s with is_playing_ad := true } hNE hIdx hFail
  rw [heq]
  exact ⟨s2, rfl, hA, hT, hP⟩

/-- Fixture for the C10 witness: ad pending, one deferred command, engine
down. -/
def stC10 : PState :=
  { st0 with
      adCache := ["ad_x.mp3"],
      pending_commands := ["play"],
      cfg := { cfg0 with total_playback_time_since_last_ad := 10 } }

/-- Witness for C10 at the concrete state `stC10` under the failing engine. -/
theorem C10_engine_failure_witness :
    (stC10.cfg.ads_enabled = true ∧ stC10.adCache ≠ [] ∧
      (0 : Int) ≤ stC10.cfg.current_ad_index) ∧
    (∃ s2, playAd envFail stC10 = some (s2, true) ∧
      s2.is_playing_ad = true ∧
      s2.cfg.total_playback_time_since_last_ad =
        stC10.cfg.total_playback_time_since_last_ad ∧
      s2.pending_commands = stC10.pending_commands) :=
  ⟨⟨rfl, by decide, by decide⟩,
   C10_engine_failure envFail stC10 rfl (by decide) (by decide)
     (fun _ => rfl)⟩

/-! ## Reconciliation deletes disk-driven orphans, not `old \ new` (C2) -/

/-- **C2** (counterexample): the claim says `reconcile(old, new, kind)`
deletes exactly `filenames(old) \ filenames(new)`. With `old = new = []` a
stray `main_a.mp3` on disk is deleted although the claimed set is empty, and
with `old = [http://h/b.wav]`, `new = []` the claimed set is
`{main_b.wav}` although the code deletes nothing (only `.mp3`/`.tmp` names
are scanned). -/
theorem C2_cex :
    (clean_removed_tracks [] [] "main" ["main_a.mp3"]).1 = ["main_a.mp3"] ∧
    specDeletedSet [] [] (pfxOf "main") = [] ∧
    (clean_removed_tracks ["http://h/b.wav"] [] "main" ["main_b.wav"]).1
      = [] ∧
    specDeletedSet ["http://h/b.wav"] [] (pfxOf "main") = ["main_b.wav"] :=
  ⟨by decide, by decide, by decide, by decide⟩

/-- **C2** (amended): `clean_removed_tracks(old, new, kind)` deletes exactly
the on-disk files that carry the kind prefix, end in `.mp3` or `.tmp`, and
are not among the derived names of `new` — independently of `old` — and it
leaves every file whose name is among the derived names of `new` untouched. -/
theorem C2_reconcile (old_list new_list : List String) (track_type : String)
    (disk : List String) :
    (clean_removed_tracks old_list new_list track_type disk).1 =
      disk.filter (fun f =>
        !((wantedFilenames new_list (pfxOf track_type)).contains f) &&
        isCandidate (pfxOf track_type) f) ∧
    (∀ f, f ∈ disk → f ∈ wantedFilenames new_list (pfxOf track_type) →
      f ∈ (clean_removed_tracks old_list new_list track_type disk).2) ∧
    (∀ old2 : List String,
      clean_removed_tracks old_list new_list track_type disk =
      clean_removed_tracks old2 new_list track_type disk) := by
  refine ⟨?_, ?_, fun old2 => rfl⟩
  · show ((disk.filter (isCandidate (pfxOf track_type))).filter
        (fun f => !((wantedFilenames new_list (pfxOf track_type)).contains f)))
      = _
    exact List.filter_filter _ _
  · intro f hdisk hw
    have hwc : (wantedFilenames new_list (pfxOf track_type)).contains f
        = true := List.elem_iff.mpr hw
    show f ∈ disk.filter (fun g =>
      !(List.contains
        ((disk.filter (isCandidate (pfxOf track_type))).filter
          (fun x =>
            !((wantedFilenames new_list (pfxOf track_type)).contains x))) g))
    rw [List.mem_filter]
    refine ⟨hdisk, ?_⟩
    cases hcont : List.contains
        ((disk.filter (isCandidate (pfxOf track_type))).filter
          (fun x =>
            !((wantedFilenames new_list (pfxOf track_type)).contains x))) f with
    | false => rfl
    | true =>
        have hmem := List.elem_iff.mp hcont
        have hpred := (List.mem_filter.mp hmem).2
        rw [hwc] at hpred
        cases hpred

/-! ## Download atomicity (C6) -/

/-- Removing a file makes it absent. -/
lemma diskHas_remove_self (d : Disk) (n : String) :
    diskHas (diskRemove d n) n = false := by
  induction d with
  | nil => rfl
  | cons p d ih =>
      by_cases h : p.1 = n <;>
        simpa [diskRemove, diskHas, List.filter_cons, h] using ih

/-- Removing one file leaves the presence of any other unchanged. -/
lemma diskHas_remove_ne (d : Disk) (n m : String) (h : m ≠ n) :
    diskHas (diskRemove d n) m = diskHas d m := by
  have hnm : ¬(n = m) := fun he => h he.symm
  induction d with
  | nil => rfl
  | cons p d ih =>
      unfold diskRemove diskHas at ih ⊢
      rw [List.filter_cons]
      by_cases hp : p.1 = n
      · rw [if_neg (by simp [hp]), List.any_cons, ih,
            show (decide (p.1 = m)) = false by simp [hp, hnm]]
        simp
      · rw [if_pos (by simp [hp]), List.any_cons, List.any_cons, ih]

/-- Removing a file never makes another file appear. -/
lemma diskHas_remove_false (d : Disk) (n m : String)
    (h : diskHas d m = false) : diskHas (diskRemove d n) m = false := by
  induction d with
  | nil => rfl
  | cons p d ih =>
      simp only [diskHas, List.any_cons, Bool.or_eq_false_iff] at h
      by_cases hp : p.1 = n
      · simpa [diskRemove, diskHas, List.filter_cons, hp] using ih h.2
      · simpa [diskRemove, diskHas, List.filter_cons, hp, h.1] using ih h.2

/-- Presence in a concatenation. -/
lemma diskHas_append (a b : Disk) (n : String) :
    diskHas (a ++ b) n = (diskHas a n || diskHas b n) := by
  simp [diskHas]

/-- Writing a file makes it present. -/
lemma diskHas_write_self (d : Disk) (n : String) (sz : Nat) :
    diskHas (diskWrite d n sz) n = true := by
  unfold diskWrite
  rw [diskHas_append]
  simp [diskHas]

/-- Writing one file leaves the presence of any other unchanged. -/
lemma diskHas_write_ne (d : Disk) (n m : String) (h : m ≠ n) (sz : Nat) :
    diskHas (diskWrite d n sz) m = diskHas d m := by
  have hnm : ¬(n = m) := fun he => h he.symm
  unfold diskWrite
  rw [diskHas_append, diskHas_remove_ne d n m h]
  simp [diskHas, hnm]

/-- Reading back the size of a freshly written file. -/
lemma diskSize_write_self (d : Disk) (n : String) (sz : Nat) :
    diskSize (diskWrite d n sz) n = sz := by
  unfold diskWrite
  induction d with
  | nil => simp [diskSize, diskRemove, List.find?]
  | cons p d ih =>
      by_cases h : p.1 = n
      · simpa [diskSize, diskRemove, List.filter_cons, h] using ih
      · simpa [diskSize, diskRemove, List.filter_cons, List.find?, h] using ih

/-- The zero-byte sweep of a file that is already absent is a no-op. -/
lemma zeroByteSweep_absent (d : Disk) (n : String)
    (h : diskHas d n = false) : zeroByteSweep d n = d := by
  unfold zeroByteSweep
  rw [h]
  simp

/-- Failure exits of the streaming body leave neither the final nor the
temporary file on disk, provided neither was present when streaming began. -/
lemma download_body_failure (fname tmp : String) (d1 : Disk) (out : DLOutcome)
    (hf : diskHas d1 fname = false) (ht : diskHas d1 tmp = false) :
    (download_body fname tmp d1 out).1 = none →
    diskHas (download_body fname tmp d1 out).2 fname = false ∧
    diskHas (download_body fname tmp d1 out).2 tmp = false := by
  have key : ∀ w, diskHas (diskRemove (diskWrite d1 tmp w) tmp) fname = false ∧
      diskHas (diskRemove (diskWrite d1 tmp w) tmp) tmp = false := by
    intro w
    refine ⟨?_, diskHas_remove_self _ _⟩
    by_cases he : fname = tmp
    · rw [he]
      exact diskHas_remove_self _ _
    · rw [diskHas_remove_ne _ _ _ he, diskHas_write_ne _ _ _ he]
      exact hf
  cases out with
  | reqFail =>
      intro _
      simp only [download_body]
      rw [zeroByteSweep_absent d1 fname hf]
      exact ⟨hf, ht⟩
  | removedDuring w =>
      intro _
      simp only [download_body]
      exact key w
  | interrupted w =>
      intro _
      simp only [download_body]
      rw [zeroByteSweep_absent _ fname (key w).1]
      exact key w
  | complete total =>
      intro h
      simp only [download_body] at h
      cases h

/-- A completed stream installs the fully streamed file at the final name. -/
lemma download_body_complete (fname tmp : String) (d1 : Disk) (total : Nat) :
    (download_body fname tmp d1 (.complete total)).1 = some fname ∧
    diskSize (download_body fname tmp d1 (.complete total)).2 fname = total := by
  refine ⟨rfl, ?_⟩
  simp only [download_body]
  exact diskSize_write_self _ _ _

/-- **C6**: provided the cache held no leftover temporary file (guaranteed at
startup by `_cleanup_temp_files`), a download that fails — before streaming,
mid-stream, or by mid-transfer playlist removal — returns `None` and leaves
neither the temporary nor the final file on disk; and a fully streamed
transfer (with no valid pre-existing cached copy) installs exactly the
streamed content at the final name. -/
theorem C6_download_atomicity (netOk : Bool) (url tt : String) (disk : Disk)
    (out : DLOutcome) (hn : netOk = true)
    (hu : strStarts url.data "http://".data = true ∨
          strStarts url.data "https://".data = true)
    (hT : diskHas disk (withSuffixTmp (pfxOf tt ++ normalizeFilename url))
        = false) :
    ((download_track_safe netOk url tt disk out).1 = none →
      diskHas (download_track_safe netOk url tt disk out).2
        (pfxOf tt ++ normalizeFilename url) = false ∧
      diskHas (download_track_safe netOk url tt disk out).2
        (withSuffixTmp (pfxOf tt ++ normalizeFilename url)) = false) ∧
    (∀ total, out = DLOutcome.complete total →
      ¬(diskHas disk (pfxOf tt ++ normalizeFilename url) = true ∧
        1024 < diskSize disk (pfxOf tt ++ normalizeFilename url)) →
      (download_track_safe netOk url tt disk out).1 =
        some (pfxOf tt ++ normalizeFilename url) ∧
      diskSize (download_track_safe netOk url tt disk out).2
        (pfxOf tt ++ normalizeFilename url) = total) := by
  have hne : ¬(url = "") := by
    intro he
    subst he
    rcases hu with h | h <;> exact absurd h (by decide)
  have h1 : (url = "" || !netOk) = false := by
    rw [hn]
    simp [hne]
  have h2 : (!(strStarts url.data "http://".data ||
      strStarts url.data "https://".data)) = false := by
    rcases hu with h | h <;> simp [h]
  unfold download_track_safe
  rw [h1, h2]
  simp only [Bool.false_eq_true, if_false]
  by_cases hpre : (diskHas disk (pfxOf tt ++ normalizeFilename url) &&
      diskSize disk (pfxOf tt ++ normalizeFilename url) > 1024) = true
  · rw [if_pos hpre]
    constructor
    · intro h
      cases h
    · intro total _ hnp
      exfalso
      apply hnp
      rcases Bool.and_eq_true_iff.mp hpre with ⟨ha, hb⟩
      exact ⟨ha, by exact_mod_cast of_decide_eq_true hb⟩
  · rw [if_neg hpre]
    have hf : diskHas
        (if diskHas disk (pfxOf tt ++ normalizeFilename url) then
          diskRemove disk (pfxOf tt ++ normalizeFilename url)
         else disk) (pfxOf tt ++ normalizeFilename url) = false := by
      by_cases hd : diskHas disk (pfxOf tt ++ normalizeFilename url) = true
      · rw [if_pos hd]
        exact diskHas_remove_self _ _
      · rw [if_neg hd]
        exact Bool.not_eq_true _ ▸ Bool.of_not_eq_true hd
    have ht : diskHas
        (if diskHas disk (pfxOf tt ++ normalizeFilename url) then
          diskRemove disk (pfxOf tt ++ normalizeFilename url)
         else disk) (withSuffixTmp (pfxOf tt ++ normalizeFilename url))
        = false := by
      by_cases hd : diskHas disk (pfxOf tt ++ normalizeFilename url) = true
      · rw [if_pos hd]
        exact diskHas_remove_false _ _ _ hT
      · rw [if_neg hd]
        exact hT
    refine ⟨download_body_failure _ _ _ out hf ht, ?_⟩
    intro total hout _
    subst hout
    exact download_body_complete _ _ _ total

/-- Witness for C6: an interrupted transfer into an empty cache leaves
nothing, and a completed transfer of 2000 bytes is installed. -/
theorem C6_download_atomicity_witness :
    ((true : Bool) = true ∧
      strStarts "http://h/a.mp3".data "http://".data = true ∧
      diskHas ([] : Disk)
        (withSuffixTmp (pfxOf "main" ++ normalizeFilename "http://h/a.mp3"))
        = false) ∧
    ((download_track_safe true "http://h/a.mp3" "main" [] (.interrupted 5)).1
        = none →
      diskHas
        (download_track_safe true "http://h/a.mp3" "main" []
          (.interrupted 5)).2
        (pfxOf "main" ++ normalizeFilename "http://h/a.mp3") = false ∧
      diskHas
        (download_track_safe true "http://h/a.mp3" "main" []
          (.interrupted 5)).2
        (withSuffixTmp (pfxOf "main" ++ normalizeFilename "http://h/a.mp3"))
        = false) ∧
    (∀ total,
      DLOutcome.interrupted 5 = DLOutcome.complete total →
      ¬(diskHas ([] : Disk)
          (pfxOf "main" ++ normalizeFilename "http://h/a.mp3") = true ∧
        1024 < diskSize ([] : Disk)
          (pfxOf "main" ++ normalizeFilename "http://h/a.mp3")) →
      (download_track_safe true "http://h/a.mp3" "main" []
          (.interrupted 5)).1 =
        some (pfxOf "main" ++ normalizeFilename "http://h/a.mp3") ∧
      diskSize
        (download_track_safe true "http://h/a.mp3" "main" []
          (.interrupted 5)).2
        (pfxOf "main" ++ normalizeFilename "http://h/a.mp3") = total) :=
  ⟨⟨rfl, by decide, by decide⟩,
   C6_download_atomicity true "http://h/a.mp3" "main" [] (.interrupted 5)
     rfl (Or.inl (by decide)) (by decide)⟩

/-- Witness for C2 at a concrete reconciliation. -/
theorem C2_reconcile_witness :
    ("main_a.mp3" ∈ (["main_a.mp3", "main_b.mp3", "main_x.tmp"] : List String) ∧
      "main_a.mp3" ∈ wantedFilenames ["http://h/a.mp3"] (pfxOf "main")) ∧
    "main_a.mp3" ∈ (clean_removed_tracks [] ["http://h/a.mp3"] "main"
        ["main_a.mp3", "main_b.mp3", "main_x.tmp"]).2 :=
  ⟨⟨by decide, by decide⟩,
   (C2_reconcile [] ["http://h/a.mp3"] "main"
       ["main_a.mp3", "main_b.mp3", "main_x.tmp"]).2.1 "main_a.mp3"
     (by decide) (by decide)⟩

/-- Witness for C7 at the concrete state `stC7`. -/
theorem C7_next_previous_effect_witness :
    (stC7.is_playing_ad = false ∧ stC7.mainCache ≠ []) ∧
    ((handle_command env0 stC7 "next").cfg.current_track_index =
      (if stC7.cfg.current_track_index ≥ (stC7.mainCache.length : Int) then 0
       else stC7.cfg.current_track_index) ∧
     (handle_command env0 stC7 "previous").cfg.current_track_index =
       pymod (stC7.cfg.current_track_index - 2) stC7.mainCache.length ∧
     0 ≤ pymod (stC7.cfg.current_track_index - 2) stC7.mainCache.length ∧
     pymod (stC7.cfg.current_track_index - 2) stC7.mainCache.length <
       (stC7.mainCache.length : Int)) :=
  ⟨⟨rfl, by decide⟩, C7_next_previous_effect env0 stC7 rfl (by decide)⟩

end AudioPlayer
